import Mathlib

/-!
Shallow embedding of the cpp-utils repository (logger.h / logger.cpp,
pretty_print.h, ansi_escapes.h) together with theorems checking the
specification's statements against it.

Machine integers are modelled as `Int` (the enum's underlying type) or `Nat`
with explicit truncation `% 2 ^ w` where a narrowing conversion occurs in the
source.
-/

namespace CPPUtils

/-! ### Logger.MessageType (logger.h lines 65-87)

`enum MessageType { Unknown = 0, Debug, Verbose, Info, Warning, Error, Wtf }`
is an unscoped enumeration; its values live in the underlying integer type and
the source compares them with the built-in integer `<=` / `>=`.  We therefore
model a `MessageType` value as an `Int` and name the seven enumerators. -/

namespace MessageType

def Unknown : Int := 0

def Debug : Int := 1

def Verbose : Int := 2

def Info : Int := 3

def Warning : Int := 4

def Error : Int := 5

def Wtf : Int := 6

end MessageType

/-! ### Logger.Destination (logger.h lines 94-131, logger.cpp lines 58-107) -/

/-- The state of a `Logger::Destination`: the two protected members
`MessageType min_type_; MessageType max_type_;` (logger.h lines 129-130). -/
structure Destination where
  min_type : Int
  max_type : Int
deriving DecidableEq, Repr

/-- Source `Logger::Destination::Destination() {}` (logger.cpp line 58): the
constructor body is empty and neither `min_type_` nor `max_type_` has an
initializer (logger.h lines 129-130), so a freshly constructed destination
keeps whatever indeterminate values its storage happened to hold.  The two
arguments stand for that indeterminate storage content. -/
def mkDestination (junk_min junk_max : Int) : Destination :=
  { min_type := junk_min, max_type := junk_max }

/-- Source `Logger::Destination::SetMinType` (logger.cpp lines 85-91):
`if (type >= MessageType::Unknown && type <= MessageType::Wtf) min_type_ = type;
else min_type_ = MessageType::Unknown;` -/
def Destination.SetMinType (d : Destination) (type : Int) : Destination :=
  if MessageType.Unknown ≤ type ∧ type ≤ MessageType.Wtf then
    { d with min_type := type }
  else
    { d with min_type := MessageType.Unknown }

/-- Source `Logger::Destination::SetMaxType` (logger.cpp lines 93-99). -/
def Destination.SetMaxType (d : Destination) (type : Int) : Destination :=
  if MessageType.Unknown ≤ type ∧ type ≤ MessageType.Wtf then
    { d with max_type := type }
  else
    { d with max_type := MessageType.Unknown }

/-- Source `Logger::Destination::GetMinType` (logger.cpp lines 101-103). -/
def Destination.GetMinType (d : Destination) : Int := d.min_type

/-- Source `Logger::Destination::GetMaxType` (logger.cpp lines 105-107). -/
def Destination.GetMaxType (d : Destination) : Int := d.max_type

/-! ### Logger (logger.h lines 62-324, logger.cpp lines 62-228)

`Logger` holds `std::vector<std::shared_ptr<Destination>> destinations_`.  The
shared pointers are modelled as indices into a heap of destination objects, so
that attaching, clearing and reattaching the *same* object is expressible. -/

/-- One virtual call received by a destination: `LogMessage(type, message)`,
`LogError(type, ex)` or `LogError(type, message, ex)` (logger.h 103-112).
Exceptions are opaque payloads; we record their `what()` text. -/
inductive LogCall where
  | message (type : Int) (msg : String)
  | error (type : Int) (ex : String)
  | messageError (type : Int) (msg : String) (ex : String)
deriving DecidableEq, Repr

/-- The state of a `Logger` together with the heap holding the destination
objects its `shared_ptr`s point to.  `destinations` is the vector
`destinations_` (logger.h line 323), each entry the address (heap index) of a
shared destination object. -/
structure LoggerState where
  heap : List Destination
  destinations : List Nat
deriving DecidableEq, Repr

/-- Source `Logger::AddDestination` (logger.cpp lines 77-79):
`destinations_.push_back(destination);` -/
def LoggerState.AddDestination (s : LoggerState) (destination : Nat) : LoggerState :=
  { s with destinations := s.destinations ++ [destination] }

/-- Source `Logger::ClearDestinations` (logger.cpp lines 81-83):
`destinations_.clear();` -/
def LoggerState.ClearDestinations (s : LoggerState) : LoggerState :=
  { s with destinations := [] }

/-- The loop shared verbatim by the three `Logger::Log` overloads
(logger.cpp lines 202-224): for each entry of `destinations_`, in order,
`if (type >= destination->GetMinType() && type <= destination->GetMaxType())`
invoke the destination's virtual method.  The result is the trace of virtual
calls actually made, as pairs (destination address, call). -/
def logEvents (s : LoggerState) (type : Int) (call : LogCall) : List (Nat × LogCall) :=
  s.destinations.filterMap fun destination =>
    match s.heap.get? destination with
    | some d =>
        if d.GetMinType ≤ type ∧ type ≤ d.GetMaxType then some (destination, call)
        else none
    | none => none

/-- Source `Logger::Log(const MessageType&, const string&)` (logger.cpp lines
202-208): the admitted destinations receive `LogMessage(type, message)`. -/
def LoggerState.Log (s : LoggerState) (type : Int) (message : String) :
    List (Nat × LogCall) :=
  logEvents s type (LogCall.message type message)

/-- Source `Logger::Log(const MessageType&, const exception&)` (logger.cpp lines
210-216): the admitted destinations receive `LogError(type, ex)`. -/
def LoggerState.LogExc (s : LoggerState) (type : Int) (ex : String) :
    List (Nat × LogCall) :=
  logEvents s type (LogCall.error type ex)

/-- Source `Logger::Log(const MessageType&, const string&, const exception&)`
(logger.cpp lines 218-224): the admitted destinations receive
`LogError(type, message, ex)`. -/
def LoggerState.LogMsgExc (s : LoggerState) (type : Int) (message : String) (ex : String) :
    List (Nat × LogCall) :=
  logEvents s type (LogCall.messageError type message ex)

/-- Whether the `Log` loop's filter admits the entry at address `i`
(the condition at logger.cpp line 204), as a Boolean on the state. -/
def admitsAt (s : LoggerState) (type : Int) (i : Nat) : Bool :=
  match s.heap.get? i with
  | some d => decide (d.GetMinType ≤ type ∧ type ≤ d.GetMaxType)
  | none => false

/-! ### pretty_print.h

`StringTraits<TChar>::Literal(narrow, wide)` (pretty_print.h lines 55-85)
selects the narrow literal when the stream's character type is `char` and the
wide literal when it is `wchar_t`.  We model the character width as a flag and
`Literal` as the corresponding selection.  Text is modelled as `List Char`
(for the escaping functions, where we induct over characters) and as `String`
(for the bracketed formats). -/

/-- The character type `TChar` of the output stream: `char` or `wchar_t`. -/
inductive CharWidth where
  | narrow
  | wide
deriving DecidableEq, Repr

/-- Source `StringTraits<TChar>::Literal(narrow, wide)`: returns the first string for
`char` streams and the second for `wchar_t` streams. -/
def Literal (w : CharWidth) (narrowLit : String) (wideLit : String) : String :=
  match w with
  | CharWidth.narrow => narrowLit
  | CharWidth.wide => wideLit

/-- The ESC control byte 0x1B, the character matched by the regex `"\033"`
built in `EscapeForPrinting` (pretty_print.h lines 315-320). -/
def escChar : Char := Char.ofNat 27

/-- Source `EscapeForPrinting` (pretty_print.h lines 315-320):
`regex_replace(text, regex("\033"), "\\033")`.  The pattern is the single
ordinary character 0x1B and the replacement contains no `$`-sequences, so
`std::regex_replace` scans the text left to right and substitutes the literal
four characters backslash `0` `3` `3` for every occurrence of 0x1B, copying
every other character unchanged. -/
def EscapeForPrinting : List Char → List Char
  | [] => []
  | c :: rest =>
      if c = escChar then '\\' :: '0' :: '3' :: '3' :: EscapeForPrinting rest
      else c :: EscapeForPrinting rest

/-- Source `PrettyPrint(os, const basic_string<TChar, TTraits>&)` (pretty_print.h
lines 351-356): writes `"` then `EscapeForPrinting(text)` then `"`. -/
def PrettyPrintString (text : List Char) : List Char :=
  '"' :: (EscapeForPrinting text ++ ['"'])

/-- The fold expression of the tuple overload (pretty_print.h lines 377-379):
`((PrettyPrint(os, args) << (++n != sizeof...(TArgs) ? ", " : "")), ...)`
writes each element followed by the separator except after the last. -/
def foldSep (sep : String) : List String → String
  | [] => ""
  | [e] => e
  | e :: rest => e ++ sep ++ foldSep sep rest

/-- Source `PrettyPrint(os, const std::tuple<TArgs...>&)` (pretty_print.h lines
367-384).  The heterogeneous elements are represented by the text each one's
recursive `PrettyPrint` writes.  For `sizeof...(TArgs) == 0` the code writes
`StringTraits<TChar>::Literal("[]", L"[]]")` (line 372); otherwise it writes
`Literal("[ ", L"[ ")`, the fold with separator `Literal(", ", L", ")`, then
`Literal(" ]", L" ]")`. -/
def PrettyPrintTuple (w : CharWidth) (elems : List String) : String :=
  if elems.length = 0 then Literal w "[]" "[]]"
  else Literal w "[ " "[ " ++ foldSep (Literal w ", " ", ") elems ++ Literal w " ]" " ]"

/-- The drain loop of the queue overload (pretty_print.h lines 437-441):
`while (!queue.empty()) { os << ", "; PrettyPrint(os, queue.front());
queue.pop(); }` applied to the elements remaining behind the front. -/
def drainLoop (w : CharWidth) : List String → String
  | [] => ""
  | e :: rest => Literal w ", " ", " ++ e ++ drainLoop w rest

/-- The body of `PrettyPrint(os, std::queue<TItem> queue)` (pretty_print.h
lines 428-444), acting on the callee's queue, front at the head of the list:
empty queue writes `Literal("[]", L"[]")`; otherwise `[ `, the front element,
the drain loop over the rest, then ` ]`.  Elements are represented by the text
their recursive `PrettyPrint` writes. -/
def PrettyPrintQueue (w : CharWidth) : List String → String
  | [] => Literal w "[]" "[]"
  | front :: rest =>
      Literal w "[ " "[ " ++ front ++ drainLoop w rest ++ Literal w " ]" " ]"

/-- A call `PrettyPrint(os, q)` on a caller's queue `q`: the parameter
`std::queue<TItem> queue` is taken **by value** (pretty_print.h line 429), so
the callee receives a copy of `q` and drains only that copy.  The result pairs
the caller's queue after the call with the text written. -/
def PrettyPrintQueueCall (w : CharWidth) (q : List String) : List String × String :=
  (q, PrettyPrintQueue w q)

/-! ### ansi_escapes.h -/

/-- Source `GetRedComponent` (ansi_escapes.h lines 47-49):
`(color & 0x00FF0000) >> 16` returned as `uint8_t` (the narrowing conversion
is the trailing `% 2 ^ 8`; the shifted value is at most 0xFF already). -/
def GetRedComponent (color : Nat) : Nat :=
  ((color &&& 0x00FF0000) >>> 16) % 2 ^ 8

/-- Source `GetGreenComponent` (ansi_escapes.h lines 54-56):
`(color & 0x0000FF00) >> 8` returned as `uint8_t`. -/
def GetGreenComponent (color : Nat) : Nat :=
  ((color &&& 0x0000FF00) >>> 8) % 2 ^ 8

/-- Source `GetBlueComponent` (ansi_escapes.h lines 61-63):
`(color & 0x000000FF)` returned as `uint8_t`. -/
def GetBlueComponent (color : Nat) : Nat :=
  (color &&& 0x000000FF) % 2 ^ 8

/-- Source `GetAlphaComponent` (ansi_escapes.h lines 70-72):
`return (color & 0xFF000000);` — the mask is **not** shifted down and the
`uint8_t` return type truncates the masked value modulo 2^8. -/
def GetAlphaComponent (color : Nat) : Nat :=
  (color &&& 0xFF000000) % 2 ^ 8

/-- Source `Escape(os, escape_code)` (ansi_escapes.h lines 90-93): writes
`"\033[" + escape_code + "m"`. -/
def Escape (escape_code : String) : String :=
  "\x1b[" ++ escape_code ++ "m"

/-- Source `ForegroundTrueColor(os, uint8_t red, uint8_t green, uint8_t blue)`
(ansi_escapes.h lines 190-195): builds `"38;2;" << (uint16_t)red << ";" <<
(uint16_t)green << ";" << (uint16_t)blue` (decimal, no leading zeros) and
passes it to `Escape`. -/
def ForegroundTrueColor (red green blue : Nat) : String :=
  Escape ("38;2;" ++ toString red ++ ";" ++ toString green ++ ";" ++ toString blue)

/-- Source `ForegroundTrueColor(os, uint32_t color)` (ansi_escapes.h lines 209-212):
`ForegroundTrueColor(os, GetRedComponent(color), GetGreenComponent(color),
GetBlueComponent(color))`. -/
def ForegroundTrueColorPacked (color : Nat) : String :=
  ForegroundTrueColor (GetRedComponent color) (GetGreenComponent color) (GetBlueComponent color)

/-! ### Helper lemmas about the Log loop -/

theorem mem_logEvents_iff (s : LoggerState) (type : Int) (call : LogCall)
    (i : Nat) (d : Destination) (hd : s.heap.get? i = some d) :
    (i, call) ∈ logEvents s type call ↔
      i ∈ s.destinations ∧ d.GetMinType ≤ type ∧ type ≤ d.GetMaxType := by
  unfold logEvents
  rw [List.mem_filterMap]
  constructor
  · rintro ⟨a, ha, hfa⟩
    cases hga : s.heap.get? a with
    | none =>
        rw [hga] at hfa
        cases hfa
    | some da =>
        rw [hga] at hfa
        have hfa' :
            (if da.GetMinType ≤ type ∧ type ≤ da.GetMaxType then some (a, call) else none)
              = some (i, call) := hfa
        split_ifs at hfa' with hc
        · injection hfa' with h
          have hai : a = i := congrArg Prod.fst h
          subst hai
          rw [hd] at hga
          injection hga with hda
          subst hda
          exact ⟨ha, hc.1, hc.2⟩
  · rintro ⟨hi, h1, h2⟩
    refine ⟨i, hi, ?_⟩
    rw [hd]
    show (if d.GetMinType ≤ type ∧ type ≤ d.GetMaxType then some (i, call) else none)
      = some (i, call)
    rw [if_pos ⟨h1, h2⟩]

theorem logEvents_sound (s : LoggerState) (type : Int) (call : LogCall)
    (e : Nat × LogCall) (he : e ∈ logEvents s type call) :
    e.1 ∈ s.destinations ∧ e.2 = call ∧ admitsAt s type e.1 = true := by
  unfold logEvents at he
  rw [List.mem_filterMap] at he
  obtain ⟨a, ha, hfa⟩ := he
  cases hga : s.heap.get? a with
  | none =>
      rw [hga] at hfa
      cases hfa
  | some da =>
      rw [hga] at hfa
      have hfa' :
          (if da.GetMinType ≤ type ∧ type ≤ da.GetMaxType then some (a, call) else none)
            = some e := hfa
      split_ifs at hfa' with hc
      · injection hfa' with h
        subst h
        refine ⟨ha, rfl, ?_⟩
        unfold admitsAt
        rw [hga]
        exact decide_eq_true hc

theorem logEvents_map_fst (s : LoggerState) (type : Int) (call : LogCall) :
    (logEvents s type call).map Prod.fst
      = s.destinations.filter (fun i => admitsAt s type i) := by
  unfold logEvents
  induction s.destinations with
  | nil => rfl
  | cons a l ih =>
      rw [List.filterMap_cons, List.filter_cons]
      cases hga : s.heap.get? a with
      | none =>
          have hfalse : admitsAt s type a = false := by
            unfold admitsAt
            rw [hga]
          simp only [hga, hfalse, ih, Bool.false_eq_true, if_false]
      | some da =>
          by_cases hc : da.GetMinType ≤ type ∧ type ≤ da.GetMaxType
          · have htrue : admitsAt s type a = true := by
              unfold admitsAt
              rw [hga]
              exact decide_eq_true hc
            simp only [hga, if_pos hc, htrue, if_true, List.map_cons, ih]
          · have hfalse : admitsAt s type a = false := by
              unfold admitsAt
              rw [hga]
              exact decide_eq_false hc
            simp only [hga, if_neg hc, hfalse, ih, Bool.false_eq_true, if_false]

/-! ### Claim theorems for the logger -/

/-- C1: for every message type and payload, each `Logger::Log` overload
invokes the matching `LogMessage`/`LogError` on an attached destination `d`
iff `d.GetMinType() <= type <= d.GetMaxType()` (both ends inclusive), and a
destination whose range excludes the type receives nothing from that call. -/
theorem C1_log_filters_by_inclusive_range (s : LoggerState) (type : Int)
    (message ex : String) (i : Nat) (d : Destination)
    (hd : s.heap.get? i = some d) :
    (((i, LogCall.message type message) ∈ s.Log type message) ↔
        (i ∈ s.destinations ∧ d.GetMinType ≤ type ∧ type ≤ d.GetMaxType)) ∧
    (((i, LogCall.error type ex) ∈ s.LogExc type ex) ↔
        (i ∈ s.destinations ∧ d.GetMinType ≤ type ∧ type ≤ d.GetMaxType)) ∧
    (((i, LogCall.messageError type message ex) ∈ s.LogMsgExc type message ex) ↔
        (i ∈ s.destinations ∧ d.GetMinType ≤ type ∧ type ≤ d.GetMaxType)) ∧
    (¬(d.GetMinType ≤ type ∧ type ≤ d.GetMaxType) →
        ∀ e ∈ s.Log type message, e.1 ≠ i) := by
  refine ⟨mem_logEvents_iff s type _ i d hd, mem_logEvents_iff s type _ i d hd,
    mem_logEvents_iff s type _ i d hd, ?_⟩
  intro hout e he hei
  have hs := logEvents_sound s type _ e he
  have hadm := hs.2.2
  rw [hei] at hadm
  unfold admitsAt at hadm
  rw [hd] at hadm
  exact hout (of_decide_eq_true hadm)

/-- C1 witness: a logger with one destination of bounds [Unknown, Wtf] at
address 0 delivers an Info message to it. -/
theorem C1_log_filters_by_inclusive_range_witness :
    ((0, LogCall.message MessageType.Info "second message") ∈
      LoggerState.Log { heap := [mkDestination 0 6], destinations := [0] }
        MessageType.Info "second message") := by
  exact (C1_log_filters_by_inclusive_range
      { heap := [mkDestination 0 6], destinations := [0] }
      MessageType.Info "second message" "ex" 0 (mkDestination 0 6) rfl).1.mpr
    ⟨by decide, by decide, by decide⟩

/-- C5: the claim says a freshly constructed `Destination` has bounds
[Unknown, Wtf] so every request passes its filter; but
`Destination::Destination() {}` initializes neither `min_type_` nor
`max_type_`, so the bounds hold indeterminate storage content.  If that
content happens to be Warning (= 4), `GetMinType()` is not Unknown and an
Info request is delivered nowhere. -/
theorem C5_default_bounds_not_initialized :
    (mkDestination MessageType.Warning MessageType.Wtf).GetMinType ≠ MessageType.Unknown ∧
    LoggerState.Log
        { heap := [mkDestination MessageType.Warning MessageType.Wtf], destinations := [0] }
        MessageType.Info "second message" = [] := by
  exact ⟨by decide, rfl⟩

/-- C6: `SetMinType`/`SetMaxType` store an in-range value (one of the seven
enumerators Unknown = 0 .. Wtf = 6) exactly, reset the bound to Unknown for
any out-of-range value, never fail (they are total), and leave the other
bound unchanged. -/
theorem C6_set_bound_clamps_to_unknown (d : Destination) (v : Int) :
    ((MessageType.Unknown ≤ v ∧ v ≤ MessageType.Wtf) →
        (d.SetMinType v).GetMinType = v ∧ (d.SetMaxType v).GetMaxType = v) ∧
    (¬(MessageType.Unknown ≤ v ∧ v ≤ MessageType.Wtf) →
        (d.SetMinType v).GetMinType = MessageType.Unknown ∧
        (d.SetMaxType v).GetMaxType = MessageType.Unknown) ∧
    (d.SetMinType v).GetMaxType = d.GetMaxType ∧
    (d.SetMaxType v).GetMinType = d.GetMinType := by
  unfold Destination.SetMinType Destination.SetMaxType
    Destination.GetMinType Destination.GetMaxType
  refine ⟨fun h => ?_, fun h => ?_, ?_, ?_⟩
  · rw [if_pos h, if_pos h]
    exact ⟨rfl, rfl⟩
  · rw [if_neg h, if_neg h]
    exact ⟨rfl, rfl⟩
  · split_ifs <;> rfl
  · split_ifs <;> rfl

/-- C6 witness: at a concrete destination, an in-range value (Info = 3) is
stored exactly and the out-of-range value -1 (the cast the repository's own
test uses) resets the bound to Unknown. -/
theorem C6_set_bound_clamps_to_unknown_witness :
    ((mkDestination 0 6).SetMinType 3).GetMinType = 3 ∧
    ((mkDestination 0 6).SetMinType (-1)).GetMinType = MessageType.Unknown := by
  exact ⟨((C6_set_bound_clamps_to_unknown (mkDestination 0 6) 3).1 (by decide)).1,
    ((C6_set_bound_clamps_to_unknown (mkDestination 0 6) (-1)).2.1 (by decide)).1⟩

/-- C7: `AddDestination` appends at the end of the destination list with no
uniqueness check (attaching the same destination twice yields two entries),
and one `Log` call notifies exactly the list entries whose range admits the
type, once per entry, in attachment order: the sequence of notified addresses
is the order-preserving filter of the attachment list. -/
theorem C7_append_order_no_dedup (s : LoggerState) (i : Nat) (type : Int)
    (message : String) :
    (s.AddDestination i).destinations = s.destinations ++ [i] ∧
    ((s.AddDestination i).AddDestination i).destinations.count i
      = s.destinations.count i + 2 ∧
    (s.Log type message).map Prod.fst
      = s.destinations.filter (fun j => admitsAt s type j) := by
  refine ⟨rfl, ?_, logEvents_map_fst s type _⟩
  unfold LoggerState.AddDestination
  rw [List.append_assoc, List.count_append]
  simp [List.count_singleton]

/-- C8: `ClearDestinations` empties the destination list and nothing else: the
heap of destination objects (hence every destination's bounds) is untouched,
every `Log` overload called afterwards delivers nothing, and a destination can
be reattached. -/
theorem C8_clear_destinations_frame (s : LoggerState) (i : Nat) (type : Int)
    (message ex : String) :
    (s.ClearDestinations).destinations = [] ∧
    (s.ClearDestinations).heap = s.heap ∧
    s.ClearDestinations.Log type message = [] ∧
    s.ClearDestinations.LogExc type ex = [] ∧
    s.ClearDestinations.LogMsgExc type message ex = [] ∧
    ((s.ClearDestinations).AddDestination i).destinations = [i] := by
  exact ⟨rfl, rfl, rfl, rfl, rfl, rfl⟩

/-! ### Helper lemmas about the pretty printer -/

theorem escapeForPrinting_eq_flatMap (t : List Char) :
    EscapeForPrinting t
      = t.flatMap (fun c => if c = escChar then ['\\', '0', '3', '3'] else [c]) := by
  induction t with
  | nil => rfl
  | cons c rest ih =>
      by_cases hc : c = escChar
      · simp [EscapeForPrinting, hc, ih]
      · simp [EscapeForPrinting, hc, ih]

theorem escapeForPrinting_of_not_mem : ∀ {t : List Char}, escChar ∉ t →
    EscapeForPrinting t = t
  | [], _ => rfl
  | c :: rest, h => by
      rw [List.mem_cons, not_or] at h
      rw [EscapeForPrinting, if_neg (fun hc => h.1 hc.symm),
        escapeForPrinting_of_not_mem h.2]

theorem drainLoop_narrow_eq_foldSep (r : List String) (f : String) :
    f ++ drainLoop CharWidth.narrow r = foldSep ", " (f :: r) := by
  induction r generalizing f with
  | nil => rw [drainLoop, foldSep, String.append_empty]
  | cons e r ih =>
      have hfold : foldSep ", " (f :: e :: r) = f ++ ", " ++ foldSep ", " (e :: r) := rfl
      rw [drainLoop, hfold, ← ih e]
      simp [Literal, String.append_assoc]

theorem foldSep_shift (sep x y : String) (l : List String) :
    foldSep sep ((x ++ sep ++ y) :: l) = x ++ sep ++ foldSep sep (y :: l) := by
  cases l with
  | nil => rfl
  | cons z l =>
      have h1 : foldSep sep ((x ++ sep ++ y) :: z :: l)
          = (x ++ sep ++ y) ++ sep ++ foldSep sep (z :: l) := rfl
      have h2 : foldSep sep (y :: z :: l) = y ++ sep ++ foldSep sep (z :: l) := rfl
      rw [h1, h2]
      simp [String.append_assoc]

theorem intercalate_go_eq (sep : String) :
    ∀ (as : List String) (acc : String),
      String.intercalate.go acc sep as = foldSep sep (acc :: as)
  | [], acc => rfl
  | a :: as, acc => by
      rw [String.intercalate.go, intercalate_go_eq sep as (acc ++ sep ++ a)]
      exact foldSep_shift sep acc a as

theorem foldSep_eq_intercalate (sep : String) (l : List String) :
    foldSep sep l = String.intercalate sep l := by
  cases l with
  | nil => rfl
  | cons a as =>
      rw [String.intercalate]
      exact (intercalate_go_eq sep as a).symm

/-! ### Claim theorems for the pretty printer -/

/-- C2: rendering a string writes a double quote, the text with every ESC byte
(0x1B) replaced by the four characters backslash `0` `3` `3`, then a double
quote; no other character is altered (a text without ESC passes through
unchanged) and embedded double quotes are not escaped. -/
theorem C2_string_render_escapes_only_esc (t : List Char) :
    PrettyPrintString t = '"' :: (EscapeForPrinting t ++ ['"']) ∧
    EscapeForPrinting t
      = t.flatMap (fun c => if c = escChar then ['\\', '0', '3', '3'] else [c]) ∧
    (escChar ∉ t → EscapeForPrinting t = t) ∧
    EscapeForPrinting ('"' :: t) = '"' :: EscapeForPrinting t ∧
    EscapeForPrinting (escChar :: t) = '\\' :: '0' :: '3' :: '3' :: EscapeForPrinting t := by
  refine ⟨rfl, escapeForPrinting_eq_flatMap t,
    fun h => escapeForPrinting_of_not_mem h, ?_, ?_⟩
  · rw [EscapeForPrinting, if_neg (by decide)]
  · rw [EscapeForPrinting, if_pos rfl]

/-- C2 witness: a concrete ESC-free text (containing a double quote) passes
through `EscapeForPrinting` unchanged. -/
theorem C2_string_render_escapes_only_esc_witness :
    escChar ∉ ['h', 'i', '"'] ∧ EscapeForPrinting ['h', 'i', '"'] = ['h', 'i', '"'] := by
  exact ⟨by decide, (C2_string_render_escapes_only_esc ['h', 'i', '"']).2.2.1 (by decide)⟩

/-- C3: evaluation at the failing input.  The zero-arity tuple overload writes
`StringTraits<TChar>::Literal("[]", L"[]]")` (pretty_print.h line 372), so on
a wide-character stream the empty tuple renders as `[]]`, not the `[]` the
claim (and the overload's own documentation, pretty_print.h line 183) states;
narrow streams render `[]`, and a nonempty tuple renders in the documented
bracketed format. -/
theorem C3_empty_tuple_wide_typo :
    PrettyPrintTuple CharWidth.wide [] = "[]]" ∧
    PrettyPrintTuple CharWidth.wide [] ≠ "[]" ∧
    PrettyPrintTuple CharWidth.narrow [] = "[]" ∧
    PrettyPrintTuple CharWidth.narrow ["1", "\"hello\"", "9"] = "[ 1, \"hello\", 9 ]" := by
  exact ⟨rfl, by decide, rfl, rfl⟩

/-- C4: rendering a queue leaves the caller's queue untouched (the overload
takes its `std::queue` parameter by value and drains only that copy), writes
`[]` for an empty queue, and otherwise writes the elements front to back as
`[ e1, e2, ..., en ]` with `, ` separators. -/
theorem C4_queue_copy_before_drain (q : List String) :
    (PrettyPrintQueueCall CharWidth.narrow q).1 = q ∧
    (q = [] → (PrettyPrintQueueCall CharWidth.narrow q).2 = "[]") ∧
    (q ≠ [] → (PrettyPrintQueueCall CharWidth.narrow q).2
        = "[ " ++ String.intercalate ", " q ++ " ]") := by
  refine ⟨rfl, fun h => by rw [h]; rfl, fun h => ?_⟩
  cases q with
  | nil => exact absurd rfl h
  | cons f r =>
      show PrettyPrintQueue CharWidth.narrow (f :: r) = _
      rw [PrettyPrintQueue, ← foldSep_eq_intercalate, ← drainLoop_narrow_eq_foldSep r f]
      simp [Literal, String.append_assoc]

/-- C4 witness: the queue 1, 2, 3 (front first) renders as `[ 1, 2, 3 ]` and
the caller's queue is returned unchanged. -/
theorem C4_queue_copy_before_drain_witness :
    (["1", "2", "3"] : List String) ≠ [] ∧
    (PrettyPrintQueueCall CharWidth.narrow ["1", "2", "3"]).1 = ["1", "2", "3"] ∧
    (PrettyPrintQueueCall CharWidth.narrow ["1", "2", "3"]).2
      = "[ " ++ String.intercalate ", " ["1", "2", "3"] ++ " ]" := by
  exact ⟨by decide, (C4_queue_copy_before_drain ["1", "2", "3"]).1,
    (C4_queue_copy_before_drain ["1", "2", "3"]).2.2 (by decide)⟩

/-! ### Helper lemmas about the color component extractors -/

theorem shiftRight_and_distrib (a b k : Nat) :
    (a &&& b) >>> k = (a >>> k) &&& (b >>> k) := by
  apply Nat.eq_of_testBit_eq
  intro i
  simp [Nat.testBit_shiftRight, Nat.testBit_and]

theorem getRed_eq_div_mod (c : Nat) : GetRedComponent c = c / 2 ^ 16 % 2 ^ 8 := by
  unfold GetRedComponent
  rw [shiftRight_and_distrib]
  have h255 : (0x00FF0000 : Nat) >>> 16 = 2 ^ 8 - 1 := by decide
  rw [h255, Nat.and_pow_two_sub_one_eq_mod, Nat.shiftRight_eq_div_pow,
    Nat.mod_mod_of_dvd _ dvd_rfl]

theorem getGreen_eq_div_mod (c : Nat) : GetGreenComponent c = c / 2 ^ 8 % 2 ^ 8 := by
  unfold GetGreenComponent
  rw [shiftRight_and_distrib]
  have h255 : (0x0000FF00 : Nat) >>> 8 = 2 ^ 8 - 1 := by decide
  rw [h255, Nat.and_pow_two_sub_one_eq_mod, Nat.shiftRight_eq_div_pow,
    Nat.mod_mod_of_dvd _ dvd_rfl]

theorem getBlue_eq_mod (c : Nat) : GetBlueComponent c = c % 2 ^ 8 := by
  unfold GetBlueComponent
  have h255 : (0x000000FF : Nat) = 2 ^ 8 - 1 := by decide
  rw [h255, Nat.and_pow_two_sub_one_eq_mod, Nat.mod_mod_of_dvd _ dvd_rfl]

/-! ### Claim theorems for the color helpers -/

/-- C9: the packed overload of `ForegroundTrueColor` produces exactly the text
of the three-argument overload applied to bits 16-23, 8-15 and 0-7 of the
packed color; the alpha bits 24-31 have no effect (the output depends only on
the low 24 bits); and the packed color 0x00154588 yields
`ESC [38;2;21;69;136m`. -/
theorem C9_packed_truecolor_matches_components (c : Nat) (_hc : c < 2 ^ 32) :
    ForegroundTrueColorPacked c
      = ForegroundTrueColor (c / 2 ^ 16 % 2 ^ 8) (c / 2 ^ 8 % 2 ^ 8) (c % 2 ^ 8) ∧
    ForegroundTrueColorPacked c = ForegroundTrueColorPacked (c % 2 ^ 24) ∧
    ForegroundTrueColorPacked 0x00154588 = "\x1b[38;2;21;69;136m" := by
  refine ⟨?_, ?_, by decide⟩
  · unfold ForegroundTrueColorPacked
    rw [getRed_eq_div_mod, getGreen_eq_div_mod, getBlue_eq_mod]
  · have h24 : (2 ^ 24 : Nat) = 2 ^ 16 * 2 ^ 8 := by norm_num
    have hr : c % 2 ^ 24 / 2 ^ 16 % 2 ^ 8 = c / 2 ^ 16 % 2 ^ 8 := by
      rw [h24, Nat.mod_mul_right_div_self, Nat.mod_mod_of_dvd _ dvd_rfl]
    have h24g : (2 ^ 24 : Nat) = 2 ^ 8 * 2 ^ 16 := by norm_num
    have hg : c % 2 ^ 24 / 2 ^ 8 % 2 ^ 8 = c / 2 ^ 8 % 2 ^ 8 := by
      rw [h24g, Nat.mod_mul_right_div_self,
        Nat.mod_mod_of_dvd _ (pow_dvd_pow 2 (by norm_num))]
    have hb : c % 2 ^ 24 % 2 ^ 8 = c % 2 ^ 8 :=
      Nat.mod_mod_of_dvd _ (pow_dvd_pow 2 (by norm_num))
    unfold ForegroundTrueColorPacked
    rw [getRed_eq_div_mod, getGreen_eq_div_mod, getBlue_eq_mod,
      getRed_eq_div_mod, getGreen_eq_div_mod, getBlue_eq_mod, hr, hg, hb]

/-- C9 witness: the spec's example color, which is below 2^32, rendered
through the packed overload. -/
theorem C9_packed_truecolor_matches_components_witness :
    (0x00154588 : Nat) < 2 ^ 32 ∧
    ForegroundTrueColorPacked 0x00154588 = "\x1b[38;2;21;69;136m" := by
  exact ⟨by decide, (C9_packed_truecolor_matches_components 0x00154588 (by decide)).2.2⟩

/-- C10: `GetAlphaComponent` returns 0 for every color: the mask 0xFF000000
is never shifted down, and the `uint8_t` return type truncates the masked
value, whose low 8 bits are all zero, modulo 256. -/
theorem C10_alpha_component_always_zero (c : Nat) : GetAlphaComponent c = 0 := by
  unfold GetAlphaComponent
  rw [← Nat.and_pow_two_sub_one_eq_mod, Nat.and_assoc]
  have h2 : (0xFF000000 &&& (2 ^ 8 - 1) : Nat) = 0 := by decide
  rw [h2, Nat.and_zero]

end CPPUtils
